import Mathlib

/-!
# Page / buffer cache monitors

A shallow embedding of the two kernel modules of the repository:

* `src/page_buffer_cache.c`: a fixed array `process_stats[BUFFER_CACHE_SIZE]` with a
  fill count `num_processes`, updated once per enumerated process by
  `update_process_buffer_cache` and printed by `my_timer_callback`;
* `src/trace_alloc.c`: an intrusive linked list `alloc_list` of `struct alloc_info`,
  updated by `collect_alloc_info` and printed by `my_timer_callback`.

Kernel constants that the sources use but do not define (`PAGE_SIZE`, `PAGE_SHIFT`,
`TASK_COMM_LEN`, `PF_KTHREAD`) are parameters of the definitions that use them.
`unsigned long` is taken to be 64 bits wide; `pid_t` values are integers.
-/

/-! ## Kernel data read by the modules -/

/-- Modulus of `unsigned long` arithmetic on a 64-bit target. -/
def ULONG_MOD : Nat := 2 ^ 64

/-- The part of `struct mm_struct` the modules read: `total_vm`, the resident page
count returned by `get_mm_rss(mm)`, and `cached_vm`. -/
structure mm_struct where
  total_vm : Nat
  rss : Nat
  cached_vm : Nat
deriving DecidableEq, Repr

/-- A member of a thread group as seen through the `thread` pointer of
`for_each_thread`: only its `mm` pointer is read (`none` is the NULL pointer). -/
structure thread_struct where
  mm : Option mm_struct
deriving DecidableEq, Repr

/-- The part of `struct task_struct` the modules read. `comm` is the C string held in
the `char comm[TASK_COMM_LEN]` field, `mm` the memory descriptor (`none` for NULL) and
`threads` the members enumerated by `for_each_thread(task, thread)`. -/
structure task_struct where
  pid : Int
  tgid : Int
  flags : Nat
  comm : List Char
  mm : Option mm_struct
  threads : List thread_struct
deriving DecidableEq, Repr

/-- C `strncpy(dst, src, n)` on C strings: at most `n` characters of `src` are copied
(the whole of `src` when it is shorter than `n`). -/
def strncpy (src : List Char) (n : Nat) : List Char := src.take n

/-- Order of first appearance: every value of `l` once, at the position of its first
occurrence (`List.dedup` keeps last occurrences, hence the two reversals). -/
def first_seen (l : List Int) : List Int := (l.reverse.dedup).reverse

/-! ## `src/page_buffer_cache.c` -/

namespace page_buffer_cache

/-- Source: `#define BUFFER_CACHE_SIZE 1024`. -/
def BUFFER_CACHE_SIZE : Nat := 1024

/-- Source: `struct process_cache_stats`. -/
structure process_cache_stats where
  tgid : Int
  comm : List Char
  prev_buffer_cache : Nat
  current_buffer_cache : Nat
  growth : Nat
deriving DecidableEq, Repr

/-- The module state: the static array `process_stats` (slot `i` of the array is
`process_stats i`; the code only touches slots below `BUFFER_CACHE_SIZE`) and the
counter `num_processes`. -/
structure Table where
  process_stats : Nat → process_cache_stats
  num_processes : Nat

/-- State at module load: zero-initialised statics. -/
def Table.init : Table :=
  { process_stats := fun _ => ⟨0, [], 0, 0, 0⟩, num_processes := 0 }

/-- Source: `get_task_buffer_cache_usage`, lines 30-40. -/
def get_task_buffer_cache_usage (PAGE_SIZE : Nat) (task : thread_struct) : Nat :=
  match task.mm with
  | none => 0
  | some mm => (0 + (mm.total_vm * PAGE_SIZE) % ULONG_MOD) % ULONG_MOD

/-- Lines 53-56: the `for_each_thread` accumulation into `current_buffer_cache`. -/
def thread_group_usage (PAGE_SIZE : Nat) (task : task_struct) : Nat :=
  task.threads.foldl
    (fun acc thread => (acc + get_task_buffer_cache_usage PAGE_SIZE thread) % ULONG_MOD) 0

/-- Lines 61-65: the in-place update of a matching entry. -/
def refresh (e : process_cache_stats) (current_buffer_cache : Nat) : process_cache_stats :=
  { e with
    growth := if current_buffer_cache > e.prev_buffer_cache
              then current_buffer_cache - e.prev_buffer_cache else 0
    prev_buffer_cache := current_buffer_cache
    current_buffer_cache := current_buffer_cache }

/-- Lines 58-68: the loop `for (i = 0; i < num_processes; i++)`, at index `i` with
`k = num_processes - i` iterations left. Returns `found` and the array. -/
def scan (tgid : Int) (current_buffer_cache : Nat) :
    Nat → Nat → (Nat → process_cache_stats) → Bool × (Nat → process_cache_stats)
  | 0, _, ps => (false, ps)
  | k + 1, i, ps =>
    if (ps i).tgid = tgid then
      (true, Function.update ps i (refresh (ps i) current_buffer_cache))
    else scan tgid current_buffer_cache k (i + 1) ps

/-- Source: `update_process_buffer_cache`, lines 43-79. -/
def update_process_buffer_cache (PAGE_SIZE TASK_COMM_LEN : Nat) (s : Table)
    (task : task_struct) : Table :=
  if task.tgid < 1000 then s
  else
    let current_buffer_cache := thread_group_usage PAGE_SIZE task
    let r := scan task.tgid current_buffer_cache s.num_processes 0 s.process_stats
    if r.1 = false ∧ s.num_processes < BUFFER_CACHE_SIZE then
      { process_stats := Function.update r.2 s.num_processes
          { tgid := task.tgid
            comm := strncpy task.comm TASK_COMM_LEN
            prev_buffer_cache := current_buffer_cache
            current_buffer_cache := current_buffer_cache
            growth := 0 }
        num_processes := s.num_processes + 1 }
    else { process_stats := r.2, num_processes := s.num_processes }

/-- Lines 95-97: the text of one `printk` body line. -/
def stat_line (e : process_cache_stats) : String :=
  "Process Group: " ++ String.mk e.comm ++ " (TGID: " ++ toString e.tgid ++
    ") | Buffer Cache: " ++ toString e.current_buffer_cache ++ " bytes | Growth: " ++
    toString e.growth ++ " bytes"

/-- Lines 93-98: the print loop at index `i` with `k` iterations left. -/
def print_loop (ps : Nat → process_cache_stats) : Nat → Nat → List String
  | 0, _ => []
  | k + 1, i =>
    if (ps i).growth < 1 then print_loop ps k (i + 1)
    else stat_line (ps i) :: print_loop ps k (i + 1)

/-- Lines 91-99: the lines written to the kernel log, one per `printk`. -/
def print_stats (s : Table) : List String :=
  ["=== Buffer Cache Stats ==="] ++ print_loop s.process_stats s.num_processes 0 ++
    ["========================="]

/-- Lines 86-88: `for_each_process(task) update_process_buffer_cache(task)`. -/
def update_all (PAGE_SIZE TASK_COMM_LEN : Nat) (s : Table) (tasks : List task_struct) :
    Table :=
  tasks.foldl (update_process_buffer_cache PAGE_SIZE TASK_COMM_LEN) s

/-- Source: `my_timer_callback`, lines 82-103, on the enumerated processes `tasks`:
the new table and the lines logged. -/
def my_timer_callback (PAGE_SIZE TASK_COMM_LEN : Nat) (s : Table)
    (tasks : List task_struct) : Table × List String :=
  let s1 := update_all PAGE_SIZE TASK_COMM_LEN s tasks
  (s1, print_stats s1)

/-- The tracked group ids in index order: `process_stats[i].tgid` for
`i < num_processes`. -/
def tracked (s : Table) : List Int :=
  (List.range s.num_processes).map (fun i => (s.process_stats i).tgid)

/-- The group ids of the samples that pass the `tgid < 1000` filter, in call order. -/
def qualifying_ids (tasks : List task_struct) : List Int :=
  (tasks.map (fun t => t.tgid)).filter (fun g => decide (1000 ≤ g))

/-- A single-threaded process `tgid` named `name` whose address space spans `pages`
pages. -/
def single_threaded (tgid : Int) (name : String) (pages : Nat) : task_struct :=
  { pid := tgid, tgid := tgid, flags := 0, comm := name.toList,
    mm := some ⟨pages, 0, 0⟩, threads := [⟨some ⟨pages, 0, 0⟩⟩] }

/-- The table after one pass that saw only group 1234 with 1000 pages. -/
def one_group : Table :=
  update_process_buffer_cache 4096 16 Table.init (single_threaded 1234 "bash" 1000)

/-- A full table: slot `i` tracks group `1000 + i`, for `i < 1024`. -/
def full_table : Table :=
  { process_stats := fun i => ⟨1000 + i, [], 0, 0, 0⟩, num_processes := 1024 }

/-- One sample for each of the 1025 groups `1000, ..., 2024`. -/
def many_groups : List task_struct :=
  (List.range 1025).map (fun (i : Nat) => single_threaded (1000 + (i : Int)) "p" 1)

/-- The group ids `1000, ..., 2024`. -/
def many_ids : List Int :=
  (List.range 1025).map (fun (i : Nat) => 1000 + (i : Int))

/-- A table of four groups whose growth values are 0, 5, 0 and 12. -/
def growth_example : Table :=
  { process_stats := fun i =>
      if i = 0 then ⟨1000, "a".toList, 10, 10, 0⟩
      else if i = 1 then ⟨1001, "b".toList, 50, 50, 5⟩
      else if i = 2 then ⟨1002, "c".toList, 7, 7, 0⟩
      else ⟨1003, "d".toList, 99, 99, 12⟩
    num_processes := 4 }

/-- Group `tgid` is tracked and slot `i` is the first slot below `num_processes`
holding it: the slot at which the search loop stops. -/
abbrev tracked_at (s : Table) (tgid : Int) (i : Nat) : Prop :=
  i < s.num_processes ∧ (s.process_stats i).tgid = tgid ∧
    ∀ j, j < i → (s.process_stats j).tgid ≠ tgid

/-- No slot below `num_processes` holds `tgid`. -/
abbrev untracked (s : Table) (tgid : Int) : Prop :=
  ∀ j, j < s.num_processes → (s.process_stats j).tgid ≠ tgid

end page_buffer_cache

/-! ## `src/trace_alloc.c` -/

namespace trace_alloc

/-- Source: `struct alloc_info` (the `list` link is the position in the list). -/
structure alloc_info where
  pid : Int
  comm : List Char
  rss : Nat
  cache : Nat
deriving DecidableEq, Repr

/-- Source: `get_proc_mem_info`, lines 27-41: the pair `(*rss, *cache)`. -/
def get_proc_mem_info (PAGE_SHIFT : Nat) (task : task_struct) : Nat × Nat :=
  match task.mm with
  | none => (0, 0)
  | some mm => ((mm.rss <<< PAGE_SHIFT) % ULONG_MOD, (mm.cached_vm <<< PAGE_SHIFT) % ULONG_MOD)

/-- Lines 60-66: the `list_for_each_entry` search; `some` of the updated list when a
record with the pid is found (the `goto next_task` path), `none` otherwise. -/
def overwrite (pid : Int) (rss cache : Nat) : List alloc_info → Option (List alloc_info)
  | [] => none
  | entry :: rest =>
    if entry.pid = pid then some ({ entry with rss := rss, cache := cache } :: rest)
    else (overwrite pid rss cache rest).map (fun l => entry :: l)

/-- Kernel `get_task_comm(buf, task)`: the task name copied into `buf`. -/
def get_task_comm (task : task_struct) : List Char := task.comm

/-- Lines 54-81: the body of the `for_each_process` loop for one task. `kmalloc_ok`
is whether the `kmalloc` of line 69 returns a non-NULL pointer when it is reached. -/
def collect_one (PF_KTHREAD PAGE_SHIFT : Nat) (alloc_list : List alloc_info)
    (task : task_struct) (kmalloc_ok : Bool) : List alloc_info :=
  if task.flags &&& PF_KTHREAD ≠ 0 then alloc_list
  else
    let m := get_proc_mem_info PAGE_SHIFT task
    match overwrite task.pid m.1 m.2 alloc_list with
    | some l => l
    | none =>
      if kmalloc_ok = false then alloc_list
      else alloc_list ++
        [{ pid := task.pid, rss := m.1, cache := m.2, comm := get_task_comm task }]

/-- Source: `collect_alloc_info`, lines 44-85, over the enumerated processes, each
paired with the outcome of the allocation attempted for it. -/
def collect_alloc_info (PF_KTHREAD PAGE_SHIFT : Nat) (alloc_list : List alloc_info)
    (tasks : List (task_struct × Bool)) : List alloc_info :=
  tasks.foldl (fun l tk => collect_one PF_KTHREAD PAGE_SHIFT l tk.1 tk.2) alloc_list

/-- Lines 101-102: the text of one `printk` body line. -/
def record_line (entry : alloc_info) : String :=
  "PID: " ++ toString entry.pid ++ " | Name: " ++ String.mk entry.comm ++ " | RSS: " ++
    toString entry.rss ++ " bytes | Cache: " ++ toString entry.cache ++ " bytes"

/-- Lines 99-104: the lines written to the kernel log, one per `printk`. -/
def print_records : List alloc_info → List String
  | [] => []
  | entry :: rest => record_line entry :: print_records rest

/-- Source: `my_timer_callback`, lines 88-110: the new list and the lines logged. -/
def my_timer_callback (PF_KTHREAD PAGE_SHIFT : Nat) (alloc_list : List alloc_info)
    (tasks : List (task_struct × Bool)) : List alloc_info × List String :=
  let l := collect_alloc_info PF_KTHREAD PAGE_SHIFT alloc_list tasks
  (l, ["=== Cache/Buffer Allocation Stats ==="] ++ print_records l ++
    ["====================================="])

/-- Lines 129-132 of `trace_alloc_exit`: `list_for_each_entry_safe` unlinking and
freeing each record; the result is what remains linked. -/
def trace_alloc_exit : List alloc_info → List alloc_info
  | [] => []
  | _ :: rest => trace_alloc_exit rest

/-- A user process (no `PF_KTHREAD` bit in `flags`) with a memory descriptor holding
`rss` resident pages and `cached` cached pages. -/
def user_process (pid : Int) (name : String) (rss cached : Nat) : task_struct :=
  { pid := pid, tgid := pid, flags := 4194368, comm := name.toList,
    mm := some ⟨rss + cached, rss, cached⟩, threads := [⟨some ⟨rss + cached, rss, cached⟩⟩] }

end trace_alloc

/-! ## Further definitions: the aggregation in the words of the specification, and
sample inputs -/

namespace page_buffer_cache

/-- The contribution of one thread as the specification words it: `total_vm * PAGE_SIZE`
in `unsigned long` arithmetic for a thread with a memory descriptor, `0` without. -/
def spec_thread_contribution (PAGE_SIZE : Nat) (thread : thread_struct) : Nat :=
  match thread.mm with
  | none => 0
  | some mm => (mm.total_vm * PAGE_SIZE) % ULONG_MOD

/-- The group usage as the specification words it: the sum of the contributions of all
threads of the group, in `unsigned long` arithmetic. -/
def spec_usage_bytes (PAGE_SIZE : Nat) (task : task_struct) : Nat :=
  ((task.threads.map (spec_thread_contribution PAGE_SIZE)).sum) % ULONG_MOD

/-- A process `tgid` with three threads: one spanning `2 ^ 52` pages, one without a
memory descriptor, one spanning 3 pages. -/
def three_threads (tgid : Int) : task_struct :=
  { pid := tgid, tgid := tgid, flags := 0, comm := "db".toList,
    mm := some ⟨2 ^ 52, 0, 0⟩,
    threads := [⟨some ⟨2 ^ 52, 0, 0⟩⟩, ⟨none⟩, ⟨some ⟨3, 0, 0⟩⟩] }

/-- The one-group table after a second pass that saw group 1234 with 1500 pages. -/
def grown_group : Table :=
  update_process_buffer_cache 4096 16 one_group (single_threaded 1234 "bash" 1500)

/-- The states after each of a sequence of passes: `passes.foldl` of the table
component of `my_timer_callback`. -/
def run_passes (PAGE_SIZE TASK_COMM_LEN : Nat) (s : Table)
    (passes : List (List task_struct)) : Table :=
  passes.foldl (fun t p => (my_timer_callback PAGE_SIZE TASK_COMM_LEN t p).1) s

end page_buffer_cache

namespace trace_alloc

/-- A kernel thread: the `PF_KTHREAD` bit (0x00200000) is set and there is no memory
descriptor. -/
def kernel_thread (pid : Int) (name : String) : task_struct :=
  { pid := pid, tgid := pid, flags := 2097216, comm := name.toList,
    mm := none, threads := [⟨none⟩] }

/-- A user process without a memory descriptor. -/
def exiting_process (pid : Int) (name : String) : task_struct :=
  { pid := pid, tgid := pid, flags := 4194368, comm := name.toList,
    mm := none, threads := [⟨none⟩] }

/-- A record list of two processes. -/
def two_records : List alloc_info :=
  [⟨30, "sh".toList, 8192, 0⟩, ⟨77, "P1".toList, 409600, 204800⟩]

end trace_alloc

/-! ## Lemmas on the table update -/

namespace page_buffer_cache

theorem scan_none (tgid : Int) (u : Nat) (ps : Nat → process_cache_stats) :
    ∀ (k i : Nat), (∀ j, i ≤ j → j < i + k → (ps j).tgid ≠ tgid) →
      scan tgid u k i ps = (false, ps) := by
  intro k
  induction k with
  | zero => intro i _; rfl
  | succ k ih =>
    intro i h
    have h0 : (ps i).tgid ≠ tgid := h i (le_refl i) (by omega)
    simp only [scan, if_neg h0]
    exact ih (i + 1) (fun j h1 h2 => h j (by omega) (by omega))

theorem scan_some (tgid : Int) (u : Nat) (ps : Nat → process_cache_stats) (m : Nat)
    (hm : (ps m).tgid = tgid) :
    ∀ (k i : Nat), i ≤ m → m < i + k → (∀ j, i ≤ j → j < m → (ps j).tgid ≠ tgid) →
      scan tgid u k i ps = (true, Function.update ps m (refresh (ps m) u)) := by
  intro k
  induction k with
  | zero => intro i h1 h2; omega
  | succ k ih =>
    intro i h1 h2 h
    by_cases him : i = m
    · subst him
      simp only [scan, if_pos hm]
    · have h0 : (ps i).tgid ≠ tgid := h i (le_refl i) (by omega)
      simp only [scan, if_neg h0]
      exact ih (i + 1) (by omega) (by omega) (fun j h3 h4 => h j (by omega) h4)

theorem update_skip (P L : Nat) (s : Table) (t : task_struct) (h : t.tgid < 1000) :
    update_process_buffer_cache P L s t = s := by
  simp only [update_process_buffer_cache, if_pos h]

theorem update_hit (P L : Nat) (s : Table) (t : task_struct) (i : Nat)
    (hq : 1000 ≤ t.tgid) (hi : tracked_at s t.tgid i) :
    update_process_buffer_cache P L s t =
      { process_stats := Function.update s.process_stats i
          (refresh (s.process_stats i) (thread_group_usage P t))
        num_processes := s.num_processes } := by
  have hs := scan_some t.tgid (thread_group_usage P t) s.process_stats i hi.2.1
    s.num_processes 0 (Nat.zero_le i) (by have := hi.1; omega) (fun j _ h => hi.2.2 j h)
  have hq2 : ¬ t.tgid < 1000 := by omega
  simp [update_process_buffer_cache, hq2, hs]

theorem update_miss (P L : Nat) (s : Table) (t : task_struct)
    (hq : 1000 ≤ t.tgid) (hu : untracked s t.tgid)
    (hn : s.num_processes < BUFFER_CACHE_SIZE) :
    update_process_buffer_cache P L s t =
      { process_stats := Function.update s.process_stats s.num_processes
          ⟨t.tgid, strncpy t.comm L, thread_group_usage P t, thread_group_usage P t, 0⟩
        num_processes := s.num_processes + 1 } := by
  have hs := scan_none t.tgid (thread_group_usage P t) s.process_stats
    s.num_processes 0 (fun j _ h => hu j (by omega))
  have hq2 : ¬ t.tgid < 1000 := by omega
  simp [update_process_buffer_cache, hq2, hs, hn]

theorem update_full (P L : Nat) (s : Table) (t : task_struct)
    (hu : untracked s t.tgid) (hn : BUFFER_CACHE_SIZE ≤ s.num_processes) :
    update_process_buffer_cache P L s t = s := by
  have hs := scan_none t.tgid (thread_group_usage P t) s.process_stats
    s.num_processes 0 (fun j _ h => hu j (by omega))
  have hn2 : ¬ s.num_processes < BUFFER_CACHE_SIZE := by omega
  by_cases hq : t.tgid < 1000
  · exact update_skip P L s t hq
  · simp [update_process_buffer_cache, hq, hs, hn2]

theorem tracked_or_untracked (s : Table) (tgid : Int) :
    (∃ i, tracked_at s tgid i) ∨ untracked s tgid := by
  by_cases h : ∃ i, i < s.num_processes ∧ (s.process_stats i).tgid = tgid
  · left
    refine ⟨Nat.find h, (Nat.find_spec h).1, (Nat.find_spec h).2, ?_⟩
    intro j hj hj2
    exact Nat.find_min h hj ⟨lt_trans hj (Nat.find_spec h).1, hj2⟩
  · right
    intro j hj hj2
    exact h ⟨j, hj, hj2⟩

end page_buffer_cache

namespace page_buffer_cache

theorem prev_after_update (P L : Nat) (s : Table) (a : task_struct) (j : Nat)
    (hq : 1000 ≤ a.tgid)
    (hj : tracked_at (update_process_buffer_cache P L s a) a.tgid j) :
    ((update_process_buffer_cache P L s a).process_stats j).prev_buffer_cache =
      thread_group_usage P a := by
  rcases tracked_or_untracked s a.tgid with ⟨m, hm⟩ | hu
  · rw [update_hit P L s a m hq hm] at hj ⊢
    obtain ⟨_, hj2, hj3⟩ := hj
    have hjm : j = m := by
      rcases Nat.lt_trichotomy j m with h | h | h
      · exfalso
        have hne : j ≠ m := by omega
        simp only [Function.update_noteq hne] at hj2
        exact hm.2.2 j h hj2
      · exact h
      · exfalso
        apply hj3 m h
        simp [refresh, hm.2.1]
    subst hjm
    simp [refresh]
  · by_cases hn : s.num_processes < BUFFER_CACHE_SIZE
    · rw [update_miss P L s a hq hu hn] at hj ⊢
      obtain ⟨hj1, hj2, _⟩ := hj
      have hjm : j = s.num_processes := by
        by_contra hne
        simp only [Function.update_noteq hne] at hj2
        simp only at hj1
        exact hu j (by omega) hj2
      subst hjm
      simp
    · rw [update_full P L s a hu (by omega)] at hj
      exact absurd hj.2.1 (hu j hj.1)

/-- Claim C1. When the sampled group (id at least 1000) is already tracked, at slot `i`
found by the search, `update_process_buffer_cache` leaves `num_processes` and every
other slot unchanged and rewrites slot `i` to: same `tgid` and `comm`,
`prev_buffer_cache = current_buffer_cache = usage`, and `growth = usage - old prev`
when `usage > old prev`, else `0`. Consequently, whenever the group is tracked after a
sample `a`, the next sample `b` of the same group leaves `growth = max 0 (u_b - u_a)`
and both stored usages equal to `u_b`. -/
theorem C1_tracked_group_update (PAGE_SIZE TASK_COMM_LEN : Nat) (s : Table)
    (a b : task_struct) (i : Nat)
    (hq : 1000 ≤ a.tgid) (hi : tracked_at s a.tgid i) (hb : b.tgid = a.tgid) :
    ((update_process_buffer_cache PAGE_SIZE TASK_COMM_LEN s a).num_processes
        = s.num_processes ∧
      (∀ j, j ≠ i →
        (update_process_buffer_cache PAGE_SIZE TASK_COMM_LEN s a).process_stats j
          = s.process_stats j) ∧
      (update_process_buffer_cache PAGE_SIZE TASK_COMM_LEN s a).process_stats i =
        { tgid := (s.process_stats i).tgid
          comm := (s.process_stats i).comm
          prev_buffer_cache := thread_group_usage PAGE_SIZE a
          current_buffer_cache := thread_group_usage PAGE_SIZE a
          growth :=
            if thread_group_usage PAGE_SIZE a > (s.process_stats i).prev_buffer_cache
            then thread_group_usage PAGE_SIZE a - (s.process_stats i).prev_buffer_cache
            else 0 }) ∧
    (∀ (s0 : Table) (j : Nat),
      tracked_at (update_process_buffer_cache PAGE_SIZE TASK_COMM_LEN s0 a) a.tgid j →
      ((((update_process_buffer_cache PAGE_SIZE TASK_COMM_LEN
            (update_process_buffer_cache PAGE_SIZE TASK_COMM_LEN s0 a) b).process_stats
          j).growth : Int)
          = max 0 ((thread_group_usage PAGE_SIZE b : Int) - thread_group_usage PAGE_SIZE a) ∧
        ((update_process_buffer_cache PAGE_SIZE TASK_COMM_LEN
            (update_process_buffer_cache PAGE_SIZE TASK_COMM_LEN s0 a) b).process_stats
          j).prev_buffer_cache = thread_group_usage PAGE_SIZE b ∧
        ((update_process_buffer_cache PAGE_SIZE TASK_COMM_LEN
            (update_process_buffer_cache PAGE_SIZE TASK_COMM_LEN s0 a) b).process_stats
          j).current_buffer_cache = thread_group_usage PAGE_SIZE b)) := by
  refine ⟨?_, ?_⟩
  · rw [update_hit PAGE_SIZE TASK_COMM_LEN s a i hq hi]
    refine ⟨rfl, ?_, ?_⟩
    · intro j hj
      simp [Function.update_noteq hj]
    · simp [refresh]
  · intro s0 j hj
    have hp := prev_after_update PAGE_SIZE TASK_COMM_LEN s0 a j hq hj
    have hj2 : tracked_at (update_process_buffer_cache PAGE_SIZE TASK_COMM_LEN s0 a)
        b.tgid j := by rw [hb]; exact hj
    rw [update_hit PAGE_SIZE TASK_COMM_LEN _ b j (by omega) hj2]
    refine ⟨?_, by simp [refresh], by simp [refresh]⟩
    simp only [Function.update_same, refresh, hp]
    split_ifs with h
    · rw [Nat.cast_sub (le_of_lt h)]
      omega
    · simp only [Nat.cast_zero]
      omega

/-- Witness for C1: group 1234 tracked with 1000 pages of 4096 bytes, sampled at 1500
pages (growth 500 pages) and then at 1200 pages (growth 0). -/
theorem C1_tracked_group_update_witness :
    (1000 ≤ (single_threaded 1234 "bash" 1500).tgid ∧
      tracked_at one_group (single_threaded 1234 "bash" 1500).tgid 0 ∧
      (single_threaded 1234 "bash" 1200).tgid = (single_threaded 1234 "bash" 1500).tgid) ∧
    (update_process_buffer_cache 4096 16 one_group
        (single_threaded 1234 "bash" 1500)).process_stats 0 =
      ⟨1234, "bash".toList, 6144000, 6144000, 2048000⟩ ∧
    (((update_process_buffer_cache 4096 16
        (update_process_buffer_cache 4096 16 one_group (single_threaded 1234 "bash" 1500))
        (single_threaded 1234 "bash" 1200)).process_stats 0).growth : Int) = 0 :=
  ⟨⟨by decide, by decide, by decide⟩,
   (C1_tracked_group_update 4096 16 one_group (single_threaded 1234 "bash" 1500)
      (single_threaded 1234 "bash" 1200) 0 (by decide) (by decide) (by decide)).1.2.2,
   ((C1_tracked_group_update 4096 16 one_group (single_threaded 1234 "bash" 1500)
      (single_threaded 1234 "bash" 1200) 0 (by decide) (by decide) (by decide)).2
        one_group 0 (by decide)).1⟩

/-- Claim C2. When the sampled group (id at least 1000) is not tracked and
`num_processes < 1024`, `update_process_buffer_cache` writes slot `num_processes` with
the task's `tgid`, its name, `prev_buffer_cache = current_buffer_cache = usage` and
`growth = 0`, increments `num_processes` by one and changes no other slot. The task
name is a string held, with its terminator, in the `char comm[TASK_COMM_LEN]` field. -/
theorem C2_insert_new_group (PAGE_SIZE TASK_COMM_LEN : Nat) (s : Table)
    (task : task_struct)
    (hq : 1000 ≤ task.tgid) (hu : untracked s task.tgid)
    (hn : s.num_processes < 1024) (hc : task.comm.length < TASK_COMM_LEN) :
    (update_process_buffer_cache PAGE_SIZE TASK_COMM_LEN s task).num_processes
        = s.num_processes + 1 ∧
    (update_process_buffer_cache PAGE_SIZE TASK_COMM_LEN s task).process_stats
        s.num_processes =
      { tgid := task.tgid
        comm := task.comm
        prev_buffer_cache := thread_group_usage PAGE_SIZE task
        current_buffer_cache := thread_group_usage PAGE_SIZE task
        growth := 0 } ∧
    (∀ j, j ≠ s.num_processes →
      (update_process_buffer_cache PAGE_SIZE TASK_COMM_LEN s task).process_stats j
        = s.process_stats j) := by
  rw [update_miss PAGE_SIZE TASK_COMM_LEN s task hq hu hn]
  refine ⟨rfl, ?_, ?_⟩
  · simp [strncpy, List.take_of_length_le (le_of_lt hc)]
  · intro j hj
    simp [Function.update_noteq hj]

/-- Witness for C2: group 2000 is new to the one-entry table and lands in slot 1. -/
theorem C2_insert_new_group_witness :
    (1000 ≤ (single_threaded 2000 "vim" 10).tgid ∧
      untracked one_group (single_threaded 2000 "vim" 10).tgid ∧
      one_group.num_processes < 1024 ∧
      (single_threaded 2000 "vim" 10).comm.length < 16) ∧
    (update_process_buffer_cache 4096 16 one_group
        (single_threaded 2000 "vim" 10)).num_processes = 2 ∧
    (update_process_buffer_cache 4096 16 one_group
        (single_threaded 2000 "vim" 10)).process_stats 1 =
      ⟨2000, "vim".toList, 40960, 40960, 0⟩ :=
  ⟨⟨by decide, by decide, by decide, by decide⟩,
   (C2_insert_new_group 4096 16 one_group (single_threaded 2000 "vim" 10)
      (by decide) (by decide) (by decide) (by decide)).1,
   (C2_insert_new_group 4096 16 one_group (single_threaded 2000 "vim" 10)
      (by decide) (by decide) (by decide) (by decide)).2.1⟩

/-- Claim C3. When the table is full (`num_processes = 1024`) and the sampled group is
not tracked, `update_process_buffer_cache` returns the table unchanged. -/
theorem C3_full_table_noop (PAGE_SIZE TASK_COMM_LEN : Nat) (s : Table)
    (task : task_struct)
    (hn : s.num_processes = 1024) (hu : untracked s task.tgid) :
    update_process_buffer_cache PAGE_SIZE TASK_COMM_LEN s task = s :=
  update_full PAGE_SIZE TASK_COMM_LEN s task hu (by simp [BUFFER_CACHE_SIZE, hn])

theorem full_table_untracked (g : Int) (hg : g < 1000 ∨ 2024 ≤ g) :
    untracked full_table g := by
  intro j hj h
  simp only [full_table] at hj h
  omega

/-- Witness for C3: group 5000 meets the full table of groups 1000..2023. -/
theorem C3_full_table_noop_witness :
    (full_table.num_processes = 1024 ∧
      untracked full_table (single_threaded 5000 "late" 7).tgid) ∧
    update_process_buffer_cache 4096 16 full_table (single_threaded 5000 "late" 7)
      = full_table :=
  ⟨⟨rfl, full_table_untracked 5000 (by decide)⟩,
   C3_full_table_noop 4096 16 full_table (single_threaded 5000 "late" 7) rfl
     (full_table_untracked 5000 (by decide))⟩

/-! ## The tracked ids along a run -/

theorem length_tracked (s : Table) : (tracked s).length = s.num_processes := by
  simp [tracked]

theorem mem_tracked (s : Table) (g : Int) :
    g ∈ tracked s ↔ ∃ j, j < s.num_processes ∧ (s.process_stats j).tgid = g := by
  simp [tracked]

theorem untracked_iff (s : Table) (g : Int) : untracked s g ↔ g ∉ tracked s := by
  rw [mem_tracked]
  constructor
  · rintro h ⟨j, hj, hj2⟩
    exact h j hj hj2
  · intro h j hj hj2
    exact h ⟨j, hj, hj2⟩

theorem tracked_update (P L : Nat) (s : Table) (t : task_struct) :
    tracked (update_process_buffer_cache P L s t) =
      if t.tgid < 1000 then tracked s
      else if t.tgid ∈ tracked s then tracked s
      else if s.num_processes < BUFFER_CACHE_SIZE then tracked s ++ [t.tgid]
      else tracked s := by
  by_cases hq : t.tgid < 1000
  · rw [update_skip P L s t hq, if_pos hq]
  · rw [if_neg hq]
    rcases tracked_or_untracked s t.tgid with ⟨m, hm⟩ | hu
    · have hmem : t.tgid ∈ tracked s := (mem_tracked s t.tgid).2 ⟨m, hm.1, hm.2.1⟩
      rw [if_pos hmem, update_hit P L s t m (by omega) hm]
      unfold tracked
      apply List.map_congr_left
      intro j _
      by_cases hjm : j = m
      · subst hjm
        simp [refresh]
      · simp [Function.update_noteq hjm]
    · have hmem : t.tgid ∉ tracked s := (untracked_iff s t.tgid).1 hu
      rw [if_neg hmem]
      by_cases hn : s.num_processes < BUFFER_CACHE_SIZE
      · rw [if_pos hn, update_miss P L s t (by omega) hu hn]
        unfold tracked
        simp only [List.range_succ, List.map_append, List.map_cons, List.map_nil,
          Function.update_same]
        congr 1
        apply List.map_congr_left
        intro j hj
        have hjn : j ≠ s.num_processes := by
          have := List.mem_range.1 hj
          omega
        simp [Function.update_noteq hjn]
      · rw [if_neg hn, update_full P L s t hu (by omega)]

theorem first_seen_snoc (l : List Int) (g : Int) :
    first_seen (l ++ [g]) =
      if g ∈ first_seen l then first_seen l else first_seen l ++ [g] := by
  unfold first_seen
  rw [List.reverse_append, List.reverse_singleton, List.singleton_append]
  by_cases h : g ∈ l.reverse
  · have h2 : g ∈ (l.reverse.dedup).reverse := by
      rw [List.mem_reverse, List.mem_dedup]; exact h
    rw [List.dedup_cons_of_mem h, if_pos h2]
  · have h2 : g ∉ (l.reverse.dedup).reverse := by
      rw [List.mem_reverse, List.mem_dedup]; exact h
    rw [List.dedup_cons_of_not_mem h, if_neg h2, List.reverse_cons]

theorem first_seen_example : first_seen [3, 1, 3, 2, 1] = [3, 1, 2] := by
  decide

theorem first_seen_nodup (l : List Int) : (first_seen l).Nodup :=
  List.nodup_reverse.2 (List.nodup_dedup _)

theorem first_seen_of_nodup (l : List Int) (h : l.Nodup) : first_seen l = l := by
  unfold first_seen
  rw [(List.nodup_reverse.2 h).dedup, List.reverse_reverse]

theorem qualifying_ids_snoc (l : List task_struct) (t : task_struct) :
    qualifying_ids (l ++ [t]) =
      if t.tgid < 1000 then qualifying_ids l else qualifying_ids l ++ [t.tgid] := by
  unfold qualifying_ids
  by_cases h : t.tgid < 1000
  · have h2 : ¬ 1000 ≤ t.tgid := by omega
    simp [List.filter_cons, h, h2]
  · have h2 : 1000 ≤ t.tgid := by omega
    simp [List.filter_cons, h, h2]

theorem update_all_snoc (P L : Nat) (s : Table) (l : List task_struct) (t : task_struct) :
    update_all P L s (l ++ [t]) = update_process_buffer_cache P L (update_all P L s l) t := by
  simp [update_all, List.foldl_append]

/-- Along any run from the empty table, the tracked ids are the first
`BUFFER_CACHE_SIZE` distinct qualifying ids in order of first appearance. -/
theorem tracked_update_all (P L : Nat) (tasks : List task_struct) :
    tracked (update_all P L Table.init tasks) =
      (first_seen (qualifying_ids tasks)).take BUFFER_CACHE_SIZE := by
  induction tasks using List.reverseRecOn with
  | nil => rfl
  | append_singleton l t ih =>
    rw [update_all_snoc, tracked_update, qualifying_ids_snoc]
    have hlen := length_tracked (update_all P L Table.init l)
    by_cases hq : t.tgid < 1000
    · rw [if_pos hq, if_pos hq, ih]
    · rw [if_neg hq, if_neg hq, first_seen_snoc]
      by_cases hmem : t.tgid ∈ tracked (update_all P L Table.init l)
      · rw [if_pos hmem]
        have hF : t.tgid ∈ first_seen (qualifying_ids l) := by
          rw [ih] at hmem
          exact List.mem_of_mem_take hmem
        rw [if_pos hF, ih]
      · rw [if_neg hmem]
        rw [ih, List.length_take] at hlen
        by_cases hn : (update_all P L Table.init l).num_processes < BUFFER_CACHE_SIZE
        · rw [if_pos hn]
          have hle : (first_seen (qualifying_ids l)).length < BUFFER_CACHE_SIZE := by omega
          have hT : tracked (update_all P L Table.init l) = first_seen (qualifying_ids l) := by
            rw [ih, List.take_of_length_le (le_of_lt hle)]
          rw [hT] at hmem
          rw [if_neg hmem, hT]
          symm
          apply List.take_of_length_le
          simp only [List.length_append, List.length_singleton]
          omega
        · rw [if_neg hn, ih]
          have hge : BUFFER_CACHE_SIZE ≤ (first_seen (qualifying_ids l)).length := by omega
          split_ifs
          · rfl
          · rw [List.take_append_of_le_length hge]

theorem qualifying_ids_many_groups : qualifying_ids many_groups = many_ids := by
  unfold qualifying_ids many_groups many_ids
  rw [List.map_map, List.filter_eq_self.2]
  · apply List.map_congr_left
    intro i _
    rfl
  · intro g hg
    simp only [List.mem_map, List.mem_range, Function.comp_apply, single_threaded] at hg
    obtain ⟨i, _, rfl⟩ := hg
    simp

theorem first_seen_many_groups : first_seen (qualifying_ids many_groups) = many_ids := by
  rw [qualifying_ids_many_groups]
  apply first_seen_of_nodup
  unfold many_ids
  apply List.Nodup.map _ (List.nodup_range _)
  intro i j h
  simp only at h
  omega

theorem length_many_ids : many_ids.length = 1025 := by
  simp [many_ids]

theorem last_of_many_ids : (2024 : Int) ∈ many_ids.drop 1024 := by
  have h : many_ids = (List.range 1024).map (fun (i : Nat) => 1000 + (i : Int)) ++ [2024] := by
    unfold many_ids
    rw [List.range_succ, List.map_append]
    rfl
  rw [h, List.drop_left' (by simp)]
  simp

/-- Claim C4. From the empty table, a run whose samples contain more than 1024
distinct group ids of at least 1000 ends with `num_processes = 1024`; the tracked ids
are exactly the first 1024 distinct qualifying ids in order of first appearance, and
the 1025th and every later distinct id is in no slot of the table. -/
theorem C4_capacity_keeps_first_1024 (PAGE_SIZE TASK_COMM_LEN : Nat)
    (tasks : List task_struct)
    (h : 1024 < (first_seen (qualifying_ids tasks)).length) :
    (update_all PAGE_SIZE TASK_COMM_LEN Table.init tasks).num_processes = 1024 ∧
    tracked (update_all PAGE_SIZE TASK_COMM_LEN Table.init tasks)
      = (first_seen (qualifying_ids tasks)).take 1024 ∧
    (∀ g, g ∈ (first_seen (qualifying_ids tasks)).drop 1024 →
      untracked (update_all PAGE_SIZE TASK_COMM_LEN Table.init tasks) g) := by
  have ht := tracked_update_all PAGE_SIZE TASK_COMM_LEN tasks
  have hl := length_tracked (update_all PAGE_SIZE TASK_COMM_LEN Table.init tasks)
  refine ⟨?_, ht, ?_⟩
  · rw [ht, List.length_take] at hl
    simp only [BUFFER_CACHE_SIZE] at hl
    omega
  · intro g hg
    rw [untracked_iff, ht]
    intro hg2
    exact List.disjoint_take_drop (first_seen_nodup _) (le_refl _) hg2 hg

/-- Witness for C4: 1025 samples of the distinct groups 1000..2024 from the empty
table leave 1024 tracked groups, and group 2024 is in no slot. -/
theorem C4_capacity_keeps_first_1024_witness :
    1024 < (first_seen (qualifying_ids many_groups)).length ∧
    (update_all 4096 16 Table.init many_groups).num_processes = 1024 ∧
    untracked (update_all 4096 16 Table.init many_groups) 2024 :=
  ⟨by rw [first_seen_many_groups, length_many_ids]; decide,
   (C4_capacity_keeps_first_1024 4096 16 many_groups
      (by rw [first_seen_many_groups, length_many_ids]; decide)).1,
   (C4_capacity_keeps_first_1024 4096 16 many_groups
      (by rw [first_seen_many_groups, length_many_ids]; decide)).2.2 2024
      (by rw [first_seen_many_groups]; exact last_of_many_ids)⟩

/-- Claim C5. In every state reached from the empty table by a sequence of
`update_process_buffer_cache` calls, `0 ≤ num_processes ≤ 1024` and no two distinct
slots below `num_processes` hold the same `tgid`. -/
theorem C5_table_invariant (PAGE_SIZE TASK_COMM_LEN : Nat) (tasks : List task_struct) :
    0 ≤ (update_all PAGE_SIZE TASK_COMM_LEN Table.init tasks).num_processes ∧
    (update_all PAGE_SIZE TASK_COMM_LEN Table.init tasks).num_processes ≤ 1024 ∧
    (∀ i j, i < (update_all PAGE_SIZE TASK_COMM_LEN Table.init tasks).num_processes →
      j < (update_all PAGE_SIZE TASK_COMM_LEN Table.init tasks).num_processes →
      i ≠ j →
      ((update_all PAGE_SIZE TASK_COMM_LEN Table.init tasks).process_stats i).tgid ≠
        ((update_all PAGE_SIZE TASK_COMM_LEN Table.init tasks).process_stats j).tgid) := by
  have ht := tracked_update_all PAGE_SIZE TASK_COMM_LEN tasks
  have hl := length_tracked (update_all PAGE_SIZE TASK_COMM_LEN Table.init tasks)
  refine ⟨Nat.zero_le _, ?_, ?_⟩
  · rw [ht, List.length_take] at hl
    simp only [BUFFER_CACHE_SIZE] at hl
    omega
  · intro i j hi hj hij heq
    have hnd : (tracked (update_all PAGE_SIZE TASK_COMM_LEN Table.init tasks)).Nodup := by
      rw [ht]
      exact (first_seen_nodup _).sublist (List.take_sublist _ _)
    exact hij (List.inj_on_of_nodup_map hnd (List.mem_range.2 hi) (List.mem_range.2 hj) heq)

end page_buffer_cache

/-! ## Lemmas on the record list -/

namespace trace_alloc

theorem overwrite_none (pid : Int) (rss cache : Nat) (l : List alloc_info)
    (h : ∀ x, x ∈ l → x.pid ≠ pid) : overwrite pid rss cache l = none := by
  induction l with
  | nil => rfl
  | cons e es ih =>
    have he : e.pid ≠ pid := h e (List.mem_cons_self e es)
    simp only [overwrite, if_neg he, ih (fun x hx => h x (List.mem_cons_of_mem e hx)),
      Option.map_none']

theorem overwrite_some (pid : Int) (rss cache : Nat) (pre post : List alloc_info)
    (e : alloc_info) (he : e.pid = pid) (h : ∀ x, x ∈ pre → x.pid ≠ pid) :
    overwrite pid rss cache (pre ++ e :: post)
      = some (pre ++ { e with rss := rss, cache := cache } :: post) := by
  induction pre with
  | nil => simp only [List.nil_append, overwrite, if_pos he]
  | cons x xs ih =>
    have hx : x.pid ≠ pid := h x (List.mem_cons_self x xs)
    have ih2 := ih (fun y hy => h y (List.mem_cons_of_mem x hy))
    rw [List.cons_append, overwrite, if_neg hx, ih2, Option.map_some']
    rfl

theorem overwrite_pids (pid : Int) (rss cache : Nat) (l l2 : List alloc_info)
    (h : overwrite pid rss cache l = some l2) :
    l2.map (fun x => x.pid) = l.map (fun x => x.pid) := by
  induction l generalizing l2 with
  | nil => simp [overwrite] at h
  | cons e es ih =>
    by_cases he : e.pid = pid
    · simp only [overwrite, if_pos he, Option.some.injEq] at h
      subst h
      rfl
    · simp only [overwrite, if_neg he, Option.map_eq_some'] at h
      obtain ⟨l3, h3, rfl⟩ := h
      simp [ih l3 h3]

theorem overwrite_none_not_mem (pid : Int) (rss cache : Nat) (l : List alloc_info)
    (h : overwrite pid rss cache l = none) : pid ∉ l.map (fun x => x.pid) := by
  induction l with
  | nil => simp
  | cons e es ih =>
    by_cases he : e.pid = pid
    · simp [overwrite, if_pos he] at h
    · simp only [overwrite, if_neg he, Option.map_eq_none'] at h
      simp only [List.map_cons, List.mem_cons, not_or]
      exact ⟨fun h2 => he h2.symm, ih h⟩

theorem collect_one_nodup (F S : Nat) (l : List alloc_info) (t : task_struct) (k : Bool)
    (h : (l.map (fun x => x.pid)).Nodup) :
    ((collect_one F S l t k).map (fun x => x.pid)).Nodup := by
  unfold collect_one
  by_cases hk : t.flags &&& F ≠ 0
  · rw [if_pos hk]; exact h
  · rw [if_neg hk]
    simp only
    cases ho : overwrite t.pid (get_proc_mem_info S t).1 (get_proc_mem_info S t).2 l with
    | some l2 =>
      simp only
      rw [overwrite_pids _ _ _ _ _ ho]
      exact h
    | none =>
      simp only
      by_cases hb : k = false
      · rw [if_pos hb]; exact h
      · rw [if_neg hb, List.map_append, List.nodup_append]
        refine ⟨h, by simp, ?_⟩
        intro a ha hb2
        simp only [List.map_cons, List.map_nil, List.mem_singleton] at hb2
        subst hb2
        exact overwrite_none_not_mem _ _ _ _ ho ha

theorem collect_alloc_info_nodup (F S : Nat) (tasks : List (task_struct × Bool)) :
    ∀ (l : List alloc_info), (l.map (fun x => x.pid)).Nodup →
      ((collect_alloc_info F S l tasks).map (fun x => x.pid)).Nodup := by
  induction tasks with
  | nil => intro l h; exact h
  | cons tk rest ih =>
    intro l h
    exact ih _ (collect_one_nodup F S l tk.1 tk.2 h)

/-- Claim C6. For a non-kernel process whose pid already has a record (the first such
record being `e`, after `pre` and before `post`), the collection step yields the same
list with only `e.rss` and `e.cache` replaced by the sampled values: pid, name, the
other records, their order and the record count are unchanged. Hence observing a pid
that has no record twice (the first allocation succeeding) leaves exactly one record
for it, holding the second sample. -/
theorem C6_existing_record_overwritten (PF_KTHREAD PAGE_SHIFT : Nat)
    (pre post : List alloc_info) (e : alloc_info) (a b : task_struct) (k : Bool)
    (ha : a.flags &&& PF_KTHREAD = 0) (hb : b.flags &&& PF_KTHREAD = 0)
    (hpid : b.pid = a.pid) (he : e.pid = a.pid)
    (hpre : ∀ x, x ∈ pre → x.pid ≠ a.pid) :
    collect_one PF_KTHREAD PAGE_SHIFT (pre ++ e :: post) a k =
      pre ++ { pid := e.pid, comm := e.comm
               rss := (get_proc_mem_info PAGE_SHIFT a).1
               cache := (get_proc_mem_info PAGE_SHIFT a).2 } :: post ∧
    (collect_one PF_KTHREAD PAGE_SHIFT (pre ++ e :: post) a k).length
      = (pre ++ e :: post).length ∧
    (∀ (l : List alloc_info) (k2 : Bool), (∀ x, x ∈ l → x.pid ≠ a.pid) →
      collect_alloc_info PF_KTHREAD PAGE_SHIFT l [(a, true), (b, k2)] =
        l ++ [{ pid := a.pid, comm := a.comm
                rss := (get_proc_mem_info PAGE_SHIFT b).1
                cache := (get_proc_mem_info PAGE_SHIFT b).2 }]) := by
  have hka : ¬ (a.flags &&& PF_KTHREAD ≠ 0) := by simp [ha]
  have hkb : ¬ (b.flags &&& PF_KTHREAD ≠ 0) := by simp [hb]
  have h1 : collect_one PF_KTHREAD PAGE_SHIFT (pre ++ e :: post) a k =
      pre ++ { pid := e.pid, comm := e.comm
               rss := (get_proc_mem_info PAGE_SHIFT a).1
               cache := (get_proc_mem_info PAGE_SHIFT a).2 } :: post := by
    unfold collect_one
    rw [if_neg hka]
    simp only [overwrite_some a.pid _ _ pre post e he hpre]
  refine ⟨h1, ?_, ?_⟩
  · rw [h1]
    simp
  · intro l k2 hl
    have h2 : collect_one PF_KTHREAD PAGE_SHIFT l a true =
        l ++ [{ pid := a.pid, comm := a.comm
                rss := (get_proc_mem_info PAGE_SHIFT a).1
                cache := (get_proc_mem_info PAGE_SHIFT a).2 }] := by
      unfold collect_one
      rw [if_neg hka]
      simp [overwrite_none a.pid _ _ l hl, get_task_comm]
    have h3 := overwrite_some b.pid (get_proc_mem_info PAGE_SHIFT b).1
      (get_proc_mem_info PAGE_SHIFT b).2 l []
      { pid := a.pid, comm := a.comm
        rss := (get_proc_mem_info PAGE_SHIFT a).1
        cache := (get_proc_mem_info PAGE_SHIFT a).2 } hpid.symm
      (fun x hx => by rw [hpid]; exact hl x hx)
    simp only [collect_alloc_info, List.foldl_cons, List.foldl_nil, h2]
    unfold collect_one
    rw [if_neg hkb]
    simp only [h3]

/-- Witness for C6: process 77 recorded with 100/50 pages is observed with 120/50
pages (pages of 4096 bytes); one record for it remains, holding the new values. From
the empty list, observing it with 120/50 and then 100/50 pages leaves the one record
100/50. -/
theorem C6_existing_record_overwritten_witness :
    ((user_process 77 "P1" 120 50).flags &&& 2097152 = 0 ∧
      (user_process 77 "P1" 100 50).pid = (user_process 77 "P1" 120 50).pid ∧
      (⟨77, "P1".toList, 409600, 204800⟩ : alloc_info).pid
        = (user_process 77 "P1" 120 50).pid ∧
      (∀ x, x ∈ [(⟨30, "sh".toList, 8192, 0⟩ : alloc_info)] →
        x.pid ≠ (user_process 77 "P1" 120 50).pid)) ∧
    collect_one 2097152 12
        ([⟨30, "sh".toList, 8192, 0⟩] ++ ⟨77, "P1".toList, 409600, 204800⟩ :: [])
        (user_process 77 "P1" 120 50) true =
      [⟨30, "sh".toList, 8192, 0⟩] ++ ⟨77, "P1".toList, 491520, 204800⟩ :: [] ∧
    collect_alloc_info 2097152 12 []
        [(user_process 77 "P1" 120 50, true), (user_process 77 "P1" 100 50, true)] =
      [] ++ [⟨77, "P1".toList, 409600, 204800⟩] :=
  ⟨⟨by decide, by decide, by decide, by decide⟩,
   (C6_existing_record_overwritten 2097152 12 [⟨30, "sh".toList, 8192, 0⟩] []
      ⟨77, "P1".toList, 409600, 204800⟩ (user_process 77 "P1" 120 50)
      (user_process 77 "P1" 100 50) true
      (by decide) (by decide) (by decide) (by decide) (by decide)).1,
   (C6_existing_record_overwritten 2097152 12 [⟨30, "sh".toList, 8192, 0⟩] []
      ⟨77, "P1".toList, 409600, 204800⟩ (user_process 77 "P1" 120 50)
      (user_process 77 "P1" 100 50) true
      (by decide) (by decide) (by decide) (by decide) (by decide)).2.2 [] true
        (by decide)⟩

/-- Claim C7. For a non-kernel process whose pid has no record, when the allocation
succeeds the collection step appends exactly one record at the tail, carrying the
process pid, name and the sampled values; the earlier records are an unchanged prefix
and the length grows by one. The list may have any length. -/
theorem C7_new_record_appended (PF_KTHREAD PAGE_SHIFT : Nat)
    (alloc_list : List alloc_info) (task : task_struct)
    (hk : task.flags &&& PF_KTHREAD = 0)
    (hnew : ∀ x, x ∈ alloc_list → x.pid ≠ task.pid) :
    collect_one PF_KTHREAD PAGE_SHIFT alloc_list task true =
      alloc_list ++ [{ pid := task.pid, comm := task.comm
                       rss := (get_proc_mem_info PAGE_SHIFT task).1
                       cache := (get_proc_mem_info PAGE_SHIFT task).2 }] ∧
    (collect_one PF_KTHREAD PAGE_SHIFT alloc_list task true).length
      = alloc_list.length + 1 := by
  have hk2 : ¬ (task.flags &&& PF_KTHREAD ≠ 0) := by simp [hk]
  have h1 : collect_one PF_KTHREAD PAGE_SHIFT alloc_list task true =
      alloc_list ++ [{ pid := task.pid, comm := task.comm
                       rss := (get_proc_mem_info PAGE_SHIFT task).1
                       cache := (get_proc_mem_info PAGE_SHIFT task).2 }] := by
    unfold collect_one
    rw [if_neg hk2]
    simp [overwrite_none task.pid _ _ alloc_list hnew, get_task_comm]
  refine ⟨h1, ?_⟩
  rw [h1]
  simp

/-- Witness for C7: process 88 is new to a one-record list and is appended. -/
theorem C7_new_record_appended_witness :
    ((user_process 88 "cat" 3 1).flags &&& 2097152 = 0 ∧
      (∀ x, x ∈ [(⟨30, "sh".toList, 8192, 0⟩ : alloc_info)] →
        x.pid ≠ (user_process 88 "cat" 3 1).pid)) ∧
    collect_one 2097152 12 [⟨30, "sh".toList, 8192, 0⟩] (user_process 88 "cat" 3 1) true =
      [⟨30, "sh".toList, 8192, 0⟩] ++ [⟨88, "cat".toList, 12288, 4096⟩] :=
  ⟨⟨by decide, by decide⟩,
   (C7_new_record_appended 2097152 12 [⟨30, "sh".toList, 8192, 0⟩]
      (user_process 88 "cat" 3 1) (by decide) (by decide)).1⟩

/-- Claim C8. In every list reached from the empty list by any sequence of collection
passes, over any enumerated processes and any allocation outcomes, no two records have
the same pid. -/
theorem C8_record_pids_distinct (PF_KTHREAD PAGE_SHIFT : Nat)
    (passes : List (List (task_struct × Bool))) :
    ((passes.foldl (collect_alloc_info PF_KTHREAD PAGE_SHIFT) []).map
      (fun x => x.pid)).Nodup := by
  have key : ∀ (l : List alloc_info), (l.map (fun x => x.pid)).Nodup →
      ((passes.foldl (collect_alloc_info PF_KTHREAD PAGE_SHIFT) l).map
        (fun x => x.pid)).Nodup := by
    induction passes with
    | nil => intro l h; exact h
    | cons p ps ih =>
      intro l h
      exact ih _ (collect_alloc_info_nodup PF_KTHREAD PAGE_SHIFT p l h)
  exact key [] List.nodup_nil

/-- Claim C9. When the allocation for an observed process whose pid has no record
fails, the list after that observation equals the list before it, and the pass goes on
to process the remaining enumerated processes from that unchanged list. -/
theorem C9_failed_allocation_dropped (PF_KTHREAD PAGE_SHIFT : Nat)
    (alloc_list : List alloc_info) (task : task_struct)
    (rest : List (task_struct × Bool))
    (hnew : ∀ x, x ∈ alloc_list → x.pid ≠ task.pid) :
    collect_one PF_KTHREAD PAGE_SHIFT alloc_list task false = alloc_list ∧
    collect_alloc_info PF_KTHREAD PAGE_SHIFT alloc_list ((task, false) :: rest) =
      collect_alloc_info PF_KTHREAD PAGE_SHIFT alloc_list rest := by
  have h1 : collect_one PF_KTHREAD PAGE_SHIFT alloc_list task false = alloc_list := by
    unfold collect_one
    by_cases hk : task.flags &&& PF_KTHREAD ≠ 0
    · rw [if_pos hk]
    · rw [if_neg hk]
      simp [overwrite_none task.pid _ _ alloc_list hnew]
  refine ⟨h1, ?_⟩
  simp only [collect_alloc_info, List.foldl_cons, h1]

/-- Witness for C9: the allocation for the new process 88 fails; the list is kept and
the next process, 99, is still recorded. -/
theorem C9_failed_allocation_dropped_witness :
    (∀ x, x ∈ [(⟨30, "sh".toList, 8192, 0⟩ : alloc_info)] →
      x.pid ≠ (user_process 88 "cat" 3 1).pid) ∧
    collect_one 2097152 12 [⟨30, "sh".toList, 8192, 0⟩] (user_process 88 "cat" 3 1) false
      = [⟨30, "sh".toList, 8192, 0⟩] ∧
    collect_alloc_info 2097152 12 [⟨30, "sh".toList, 8192, 0⟩]
        ((user_process 88 "cat" 3 1, false) :: [(user_process 99 "ls" 2 0, true)])
      = [⟨30, "sh".toList, 8192, 0⟩, ⟨99, "ls".toList, 8192, 0⟩] :=
  ⟨by decide,
   (C9_failed_allocation_dropped 2097152 12 [⟨30, "sh".toList, 8192, 0⟩]
      (user_process 88 "cat" 3 1) [(user_process 99 "ls" 2 0, true)] (by decide)).1,
   (C9_failed_allocation_dropped 2097152 12 [⟨30, "sh".toList, 8192, 0⟩]
      (user_process 88 "cat" 3 1) [(user_process 99 "ls" 2 0, true)] (by decide)).2.trans
      (by decide)⟩

end trace_alloc

/-! ## The group report -/

namespace page_buffer_cache

theorem print_loop_eq (ps : Nat → process_cache_stats) :
    ∀ (k i : Nat), print_loop ps k i =
      (((List.range' i k).map ps).filter (fun e => decide (1 ≤ e.growth))).map stat_line := by
  intro k
  induction k with
  | zero => intro i; rfl
  | succ k ih =>
    intro i
    by_cases h : (ps i).growth < 1
    · have h2 : ¬ 1 ≤ (ps i).growth := by omega
      simp [print_loop, h, h2, List.range'_succ, List.filter_cons, ih]
    · have h2 : 1 ≤ (ps i).growth := by omega
      simp [print_loop, h, h2, List.range'_succ, List.filter_cons, ih]

/-- Claim C10. For every table, the report is the header line, then one line
`Process Group: <comm> (TGID: <tgid>) | Buffer Cache: <current_buffer_cache> bytes |
Growth: <growth> bytes` for each slot below `num_processes` with `growth ≥ 1`, in index
order, then the footer line; the number of body lines is the number of slots with
non-zero growth; a pass logs this report of the table it has just updated; and growth
values 0, 5, 0, 12 give exactly the two lines for 5 and 12. -/
theorem C10_group_report (s : Table) :
    print_stats s =
      ["=== Buffer Cache Stats ==="] ++
      ((((List.range s.num_processes).map s.process_stats).filter
          (fun e => decide (1 ≤ e.growth))).map
        (fun e => "Process Group: " ++ String.mk e.comm ++ " (TGID: " ++ toString e.tgid ++
          ") | Buffer Cache: " ++ toString e.current_buffer_cache ++
          " bytes | Growth: " ++ toString e.growth ++ " bytes")) ++
      ["========================="] ∧
    (print_stats s).length =
      1 + ((List.range s.num_processes).map s.process_stats).countP
        (fun e => decide (e.growth ≠ 0)) + 1 ∧
    (∀ (PAGE_SIZE TASK_COMM_LEN : Nat) (tasks : List task_struct),
      (my_timer_callback PAGE_SIZE TASK_COMM_LEN s tasks).2 =
        print_stats (my_timer_callback PAGE_SIZE TASK_COMM_LEN s tasks).1) ∧
    print_stats growth_example =
      ["=== Buffer Cache Stats ===",
       "Process Group: b (TGID: 1001) | Buffer Cache: 50 bytes | Growth: 5 bytes",
       "Process Group: d (TGID: 1003) | Buffer Cache: 99 bytes | Growth: 12 bytes",
       "========================="] := by
  have h1 : print_loop s.process_stats s.num_processes 0 =
      (((List.range s.num_processes).map s.process_stats).filter
        (fun e => decide (1 ≤ e.growth))).map stat_line := by
    rw [print_loop_eq, List.range_eq_range']
  refine ⟨?_, ?_, ?_, ?_⟩
  · unfold print_stats
    rw [h1]
    rfl
  · unfold print_stats
    rw [h1]
    simp only [List.length_append, List.length_map, List.length_singleton,
      ← List.countP_eq_length_filter]
    congr 2
    apply List.countP_congr
    intro e _
    simp only [decide_eq_true_eq]
    omega
  · intro P L tasks
    rfl
  · decide

end page_buffer_cache

/-! ## The record report, shutdown, kernel threads and processes without memory -/

namespace trace_alloc

theorem print_records_eq (l : List alloc_info) : print_records l = l.map record_line := by
  induction l with
  | nil => rfl
  | cons e es ih => simp [print_records, ih]

/-- Claim C11. For every record list, the report of a pass is the header line, then
one line `PID: <pid> | Name: <comm> | RSS: <rss> bytes | Cache: <cache> bytes` for
every record of the list as collection left it, each record once and in list order,
then the footer line; the list after the callback is the list as collection left it
(the report changes nothing). With nothing enumerated that list is the given one. -/
theorem C11_record_report (PF_KTHREAD PAGE_SHIFT : Nat) (alloc_list : List alloc_info)
    (tasks : List (task_struct × Bool)) :
    (my_timer_callback PF_KTHREAD PAGE_SHIFT alloc_list tasks).2 =
      ["=== Cache/Buffer Allocation Stats ==="] ++
      ((collect_alloc_info PF_KTHREAD PAGE_SHIFT alloc_list tasks).map
        (fun e => "PID: " ++ toString e.pid ++ " | Name: " ++ String.mk e.comm ++
          " | RSS: " ++ toString e.rss ++ " bytes | Cache: " ++ toString e.cache ++
          " bytes")) ++
      ["====================================="] ∧
    (my_timer_callback PF_KTHREAD PAGE_SHIFT alloc_list tasks).1 =
      collect_alloc_info PF_KTHREAD PAGE_SHIFT alloc_list tasks ∧
    (my_timer_callback PF_KTHREAD PAGE_SHIFT alloc_list tasks).2.length =
      (collect_alloc_info PF_KTHREAD PAGE_SHIFT alloc_list tasks).length + 2 ∧
    (my_timer_callback PF_KTHREAD PAGE_SHIFT alloc_list []).1 = alloc_list ∧
    (my_timer_callback 2097152 12 two_records []).2 =
      ["=== Cache/Buffer Allocation Stats ===",
       "PID: 30 | Name: sh | RSS: 8192 bytes | Cache: 0 bytes",
       "PID: 77 | Name: P1 | RSS: 409600 bytes | Cache: 204800 bytes",
       "====================================="] := by
  have h1 : (my_timer_callback PF_KTHREAD PAGE_SHIFT alloc_list tasks).2 =
      ["=== Cache/Buffer Allocation Stats ==="] ++
      ((collect_alloc_info PF_KTHREAD PAGE_SHIFT alloc_list tasks).map record_line) ++
      ["====================================="] := by
    simp only [my_timer_callback, print_records_eq]
  refine ⟨?_, rfl, ?_, rfl, ?_⟩
  · rw [h1]
    rfl
  · rw [h1]
    simp only [List.length_append, List.length_map, List.length_singleton]
    omega
  · decide

/-- Claim C14. For every record list, the unlinking loop of `trace_alloc_exit` leaves
the empty list: no record remains linked. -/
theorem C14_exit_clears_list (alloc_list : List alloc_info) :
    trace_alloc_exit alloc_list = [] ∧ (trace_alloc_exit alloc_list).length = 0 ∧
    (∀ x, x ∉ trace_alloc_exit alloc_list) := by
  have h : trace_alloc_exit alloc_list = [] := by
    induction alloc_list with
    | nil => rfl
    | cons e es ih => simpa [trace_alloc_exit] using ih
  rw [h]
  simp

theorem pid_of_collect_one (F S : Nat) (l : List alloc_info) (t : task_struct) (k : Bool)
    (p : Int) (hp : p ∈ (collect_one F S l t k).map (fun x => x.pid)) :
    p ∈ l.map (fun x => x.pid) ∨ (p = t.pid ∧ t.flags &&& F = 0) := by
  unfold collect_one at hp
  by_cases hk : t.flags &&& F ≠ 0
  · rw [if_pos hk] at hp
    exact Or.inl hp
  · rw [if_neg hk] at hp
    have hk2 : t.flags &&& F = 0 := not_not.1 hk
    cases ho : overwrite t.pid (get_proc_mem_info S t).1 (get_proc_mem_info S t).2 l with
    | some l2 =>
      simp only [ho] at hp
      rw [overwrite_pids _ _ _ _ _ ho] at hp
      exact Or.inl hp
    | none =>
      simp only [ho] at hp
      by_cases hb : k = false
      · rw [if_pos hb] at hp
        exact Or.inl hp
      · rw [if_neg hb, List.map_append, List.mem_append] at hp
        rcases hp with hp | hp
        · exact Or.inl hp
        · simp only [List.map_cons, List.map_nil, List.mem_singleton] at hp
          exact Or.inr ⟨hp, hk2⟩

theorem pid_of_collect_alloc_info (F S : Nat) (tasks : List (task_struct × Bool)) :
    ∀ (l : List alloc_info) (p : Int),
      p ∈ (collect_alloc_info F S l tasks).map (fun x => x.pid) →
      p ∈ l.map (fun x => x.pid) ∨
        ∃ tk, tk ∈ tasks ∧ tk.1.pid = p ∧ tk.1.flags &&& F = 0 := by
  induction tasks with
  | nil => intro l p hp; exact Or.inl hp
  | cons tk rest ih =>
    intro l p hp
    have hp2 : p ∈ (collect_alloc_info F S (collect_one F S l tk.1 tk.2) rest).map
        (fun x => x.pid) := hp
    rcases ih _ p hp2 with h | ⟨tk2, h1, h2⟩
    · rcases pid_of_collect_one F S l tk.1 tk.2 p h with h3 | ⟨h3, h4⟩
      · exact Or.inl h3
      · exact Or.inr ⟨tk, List.mem_cons_self tk rest, h3.symm, h4⟩
    · exact Or.inr ⟨tk2, List.mem_cons_of_mem tk h1, h2⟩

theorem pid_of_passes (F S : Nat) (passes : List (List (task_struct × Bool))) :
    ∀ (l : List alloc_info) (p : Int),
      p ∈ (passes.foldl (collect_alloc_info F S) l).map (fun x => x.pid) →
      p ∈ l.map (fun x => x.pid) ∨
        ∃ pass, pass ∈ passes ∧ ∃ tk, tk ∈ pass ∧ tk.1.pid = p ∧ tk.1.flags &&& F = 0 := by
  induction passes with
  | nil => intro l p hp; exact Or.inl hp
  | cons q qs ih =>
    intro l p hp
    have hp2 : p ∈ (qs.foldl (collect_alloc_info F S) (collect_alloc_info F S l q)).map
        (fun x => x.pid) := hp
    rcases ih _ p hp2 with h | ⟨pass, h1, h2⟩
    · rcases pid_of_collect_alloc_info F S q l p h with h3 | ⟨tk, h3, h4⟩
      · exact Or.inl h3
      · exact Or.inr ⟨q, List.mem_cons_self q qs, tk, h3, h4⟩
    · exact Or.inr ⟨pass, List.mem_cons_of_mem q h1, h2⟩

/-- Claim C17. Processing an enumerated task whose `flags` has the `PF_KTHREAD` bit set
leaves the record list unchanged, whatever the list holds (a record with the same pid
included) and whatever the allocation would return, and the pass goes on from that
list. So every record of a list built from the empty list by any passes carries the
pid of a task that was enumerated without that bit. -/
theorem C17_kernel_threads_skipped (PF_KTHREAD PAGE_SHIFT : Nat)
    (alloc_list : List alloc_info) (task : task_struct) (kmalloc_ok : Bool)
    (rest : List (task_struct × Bool))
    (hk : task.flags &&& PF_KTHREAD ≠ 0) :
    collect_one PF_KTHREAD PAGE_SHIFT alloc_list task kmalloc_ok = alloc_list ∧
    collect_alloc_info PF_KTHREAD PAGE_SHIFT alloc_list ((task, kmalloc_ok) :: rest) =
      collect_alloc_info PF_KTHREAD PAGE_SHIFT alloc_list rest ∧
    (∀ (passes : List (List (task_struct × Bool))) (x : alloc_info),
      x ∈ passes.foldl (collect_alloc_info PF_KTHREAD PAGE_SHIFT) [] →
      ∃ pass, pass ∈ passes ∧ ∃ tk, tk ∈ pass ∧ tk.1.pid = x.pid ∧
        tk.1.flags &&& PF_KTHREAD = 0) := by
  have h1 : collect_one PF_KTHREAD PAGE_SHIFT alloc_list task kmalloc_ok = alloc_list := by
    unfold collect_one
    rw [if_pos hk]
  refine ⟨h1, ?_, ?_⟩
  · simp only [collect_alloc_info, List.foldl_cons, h1]
  · intro passes x hx
    rcases pid_of_passes PF_KTHREAD PAGE_SHIFT passes [] x.pid
        (List.mem_map_of_mem (fun y => y.pid) hx) with h | h
    · simp at h
    · exact h

/-- Witness for C17: kernel thread 77 meets a list that already has a record for pid
77; the list is returned as it was. -/
theorem C17_kernel_threads_skipped_witness :
    (kernel_thread 77 "kworker").flags &&& 2097152 ≠ 0 ∧
    collect_one 2097152 12 two_records (kernel_thread 77 "kworker") true = two_records ∧
    collect_alloc_info 2097152 12 two_records
        ((kernel_thread 77 "kworker", true) :: [(user_process 99 "ls" 2 0, true)]) =
      two_records ++ [⟨99, "ls".toList, 8192, 0⟩] :=
  ⟨by decide,
   (C17_kernel_threads_skipped 2097152 12 two_records (kernel_thread 77 "kworker") true
      [(user_process 99 "ls" 2 0, true)] (by decide)).1,
   (C17_kernel_threads_skipped 2097152 12 two_records (kernel_thread 77 "kworker") true
      [(user_process 99 "ls" 2 0, true)] (by decide)).2.1.trans (by decide)⟩

/-- Claim C18. For a non-kernel process without a memory descriptor
`get_proc_mem_info` yields `rss = 0` and `cache = 0`, and the pass handles the
observation like any other sample: with no record for the pid it appends the record
`(pid, name, 0, 0)` when the allocation succeeds (and keeps the list when it fails, as
for any sample); with a record for the pid it overwrites that record's `rss` and
`cache` with 0. For a process with a memory descriptor the sampled values are the
resident and the cached page counts shifted left by `PAGE_SHIFT` as `unsigned long`. -/
theorem C18_no_memory_descriptor (PF_KTHREAD PAGE_SHIFT : Nat) (task : task_struct)
    (kmalloc_ok : Bool)
    (hk : task.flags &&& PF_KTHREAD = 0) (hmm : task.mm = none) :
    get_proc_mem_info PAGE_SHIFT task = (0, 0) ∧
    (∀ (alloc_list : List alloc_info), (∀ x, x ∈ alloc_list → x.pid ≠ task.pid) →
      collect_one PF_KTHREAD PAGE_SHIFT alloc_list task kmalloc_ok =
        if kmalloc_ok = true then
          alloc_list ++ [{ pid := task.pid, comm := task.comm, rss := 0, cache := 0 }]
        else alloc_list) ∧
    (∀ (pre post : List alloc_info) (e : alloc_info), e.pid = task.pid →
      (∀ x, x ∈ pre → x.pid ≠ task.pid) →
      collect_one PF_KTHREAD PAGE_SHIFT (pre ++ e :: post) task kmalloc_ok =
        pre ++ { pid := e.pid, comm := e.comm, rss := 0, cache := 0 } :: post) ∧
    (∀ (t2 : task_struct) (mm : mm_struct), t2.mm = some mm →
      get_proc_mem_info PAGE_SHIFT t2 =
        ((mm.rss <<< PAGE_SHIFT) % 2 ^ 64, (mm.cached_vm <<< PAGE_SHIFT) % 2 ^ 64) ∧
      (get_proc_mem_info PAGE_SHIFT t2).1 = (mm.rss * 2 ^ PAGE_SHIFT) % 2 ^ 64 ∧
      (get_proc_mem_info PAGE_SHIFT t2).2 = (mm.cached_vm * 2 ^ PAGE_SHIFT) % 2 ^ 64) := by
  have hk2 : ¬ (task.flags &&& PF_KTHREAD ≠ 0) := by simp [hk]
  have h0 : get_proc_mem_info PAGE_SHIFT task = (0, 0) := by
    simp [get_proc_mem_info, hmm]
  refine ⟨h0, ?_, ?_, ?_⟩
  · intro l hl
    unfold collect_one
    rw [if_neg hk2]
    simp only [overwrite_none task.pid _ _ l hl, h0, get_task_comm]
    cases kmalloc_ok <;> simp
  · intro pre post e he hpre
    unfold collect_one
    rw [if_neg hk2]
    simp only [overwrite_some task.pid _ _ pre post e he hpre, h0]
  · intro t2 mm h2
    simp [get_proc_mem_info, h2, ULONG_MOD, Nat.shiftLeft_eq]

/-- Witness for C18: the user process 88 without memory descriptor is appended as
`(88, zombie, 0, 0)` to a list that has no record for it. -/
theorem C18_no_memory_descriptor_witness :
    ((exiting_process 88 "zombie").flags &&& 2097152 = 0 ∧
      (exiting_process 88 "zombie").mm = none) ∧
    get_proc_mem_info 12 (exiting_process 88 "zombie") = (0, 0) ∧
    collect_one 2097152 12 two_records (exiting_process 88 "zombie") true =
      two_records ++ [⟨88, "zombie".toList, 0, 0⟩] :=
  ⟨⟨by decide, by decide⟩,
   (C18_no_memory_descriptor 2097152 12 (exiting_process 88 "zombie") true
      (by decide) (by decide)).1,
   (C18_no_memory_descriptor 2097152 12 (exiting_process 88 "zombie") true
      (by decide) (by decide)).2.1 two_records (by decide)⟩

end trace_alloc

/-! ## Frame properties of the table update -/

namespace page_buffer_cache

/-- The three ways a call can end: table unchanged, matching slot refreshed, new slot
written. -/
theorem update_cases (P L : Nat) (s : Table) (t : task_struct) :
    update_process_buffer_cache P L s t = s ∨
    (∃ m, tracked_at s t.tgid m ∧ update_process_buffer_cache P L s t =
      { process_stats := Function.update s.process_stats m
          (refresh (s.process_stats m) (thread_group_usage P t))
        num_processes := s.num_processes }) ∨
    (untracked s t.tgid ∧ update_process_buffer_cache P L s t =
      { process_stats := Function.update s.process_stats s.num_processes
          ⟨t.tgid, strncpy t.comm L, thread_group_usage P t, thread_group_usage P t, 0⟩
        num_processes := s.num_processes + 1 }) := by
  by_cases hq : t.tgid < 1000
  · exact Or.inl (update_skip P L s t hq)
  · rcases tracked_or_untracked s t.tgid with ⟨m, hm⟩ | hu
    · exact Or.inr (Or.inl ⟨m, hm, update_hit P L s t m (by omega) hm⟩)
    · by_cases hn : s.num_processes < BUFFER_CACHE_SIZE
      · exact Or.inr (Or.inr ⟨hu, update_miss P L s t (by omega) hu hn⟩)
      · exact Or.inl (update_full P L s t hu (by omega))

theorem update_num_le (P L : Nat) (s : Table) (t : task_struct) :
    s.num_processes ≤ (update_process_buffer_cache P L s t).num_processes := by
  rcases update_cases P L s t with h | ⟨m, _, h⟩ | ⟨_, h⟩ <;> rw [h]
  simp

theorem update_keeps_id (P L : Nat) (s : Table) (t : task_struct) (i : Nat)
    (hi : i < s.num_processes) :
    ((update_process_buffer_cache P L s t).process_stats i).tgid = (s.process_stats i).tgid ∧
    ((update_process_buffer_cache P L s t).process_stats i).comm = (s.process_stats i).comm := by
  rcases update_cases P L s t with h | ⟨m, _, h⟩ | ⟨_, h⟩ <;> rw [h]
  · exact ⟨rfl, rfl⟩
  · by_cases him : i = m
    · subst him
      simp [refresh]
    · simp [Function.update_noteq him]
  · have him : i ≠ s.num_processes := by omega
    simp [Function.update_noteq him]

theorem update_other_slot (P L : Nat) (s : Table) (t : task_struct) (i : Nat)
    (hi : i < s.num_processes) (hne : t.tgid ≠ (s.process_stats i).tgid) :
    (update_process_buffer_cache P L s t).process_stats i = s.process_stats i := by
  rcases update_cases P L s t with h | ⟨m, hm, h⟩ | ⟨_, h⟩ <;> rw [h]
  · have him : i ≠ m := by
      intro him
      subst him
      exact hne hm.2.1.symm
    simp [Function.update_noteq him]
  · have him : i ≠ s.num_processes := by omega
    simp [Function.update_noteq him]

theorem update_prev_eq_current (P L : Nat) (s : Table) (t : task_struct)
    (h : ∀ i, i < s.num_processes →
      (s.process_stats i).prev_buffer_cache = (s.process_stats i).current_buffer_cache) :
    ∀ i, i < (update_process_buffer_cache P L s t).num_processes →
      ((update_process_buffer_cache P L s t).process_stats i).prev_buffer_cache =
        ((update_process_buffer_cache P L s t).process_stats i).current_buffer_cache := by
  rcases update_cases P L s t with h2 | ⟨m, _, h2⟩ | ⟨_, h2⟩ <;> rw [h2]
  · exact h
  · intro i hi
    by_cases him : i = m
    · subst him
      simp [refresh]
    · simp only [Function.update_noteq him]
      exact h i hi
  · intro i hi
    by_cases him : i = s.num_processes
    · subst him
      simp
    · simp only [Function.update_noteq him]
      exact h i (by simp only at hi; omega)

theorem update_all_frame (P L : Nat) (tasks : List task_struct) :
    ∀ (s : Table), s.num_processes ≤ (update_all P L s tasks).num_processes ∧
      ∀ i, i < s.num_processes →
        ((update_all P L s tasks).process_stats i).tgid = (s.process_stats i).tgid ∧
        ((update_all P L s tasks).process_stats i).comm = (s.process_stats i).comm := by
  induction tasks with
  | nil => intro s; exact ⟨le_refl _, fun i _ => ⟨rfl, rfl⟩⟩
  | cons t ts ih =>
    intro s
    have h1 := update_num_le P L s t
    have h2 := ih (update_process_buffer_cache P L s t)
    refine ⟨le_trans h1 h2.1, ?_⟩
    intro i hi
    have h3 := h2.2 i (by omega)
    have h4 := update_keeps_id P L s t i hi
    exact ⟨h3.1.trans h4.1, h3.2.trans h4.2⟩

theorem update_all_other_slot (P L : Nat) (tasks : List task_struct) :
    ∀ (s : Table) (i : Nat), i < s.num_processes →
      (∀ t, t ∈ tasks → t.tgid ≠ (s.process_stats i).tgid) →
      (update_all P L s tasks).process_stats i = s.process_stats i := by
  induction tasks with
  | nil => intro s i _ _; rfl
  | cons t ts ih =>
    intro s i hi h
    have h1 := update_other_slot P L s t i hi (h t (List.mem_cons_self t ts))
    have h2 := ih (update_process_buffer_cache P L s t) i
      (lt_of_lt_of_le hi (update_num_le P L s t))
      (by rw [h1]; exact fun u hu => h u (List.mem_cons_of_mem t hu))
    exact h2.trans h1

/-- Claim C12. For a task whose `tgid` is below 1000 (negative values included)
`update_process_buffer_cache` returns the table unchanged; hence in every table reached
from the empty table every slot below `num_processes` holds a `tgid` of at least
1000. -/
theorem C12_system_groups_ignored (PAGE_SIZE TASK_COMM_LEN : Nat) (s : Table)
    (task : task_struct) (h : task.tgid < 1000) :
    update_process_buffer_cache PAGE_SIZE TASK_COMM_LEN s task = s ∧
    (∀ (tasks : List task_struct) (i : Nat),
      i < (update_all PAGE_SIZE TASK_COMM_LEN Table.init tasks).num_processes →
      1000 ≤ ((update_all PAGE_SIZE TASK_COMM_LEN Table.init tasks).process_stats i).tgid) := by
  refine ⟨update_skip PAGE_SIZE TASK_COMM_LEN s task h, ?_⟩
  intro tasks i hi
  have hm : ((update_all PAGE_SIZE TASK_COMM_LEN Table.init tasks).process_stats i).tgid ∈
      tracked (update_all PAGE_SIZE TASK_COMM_LEN Table.init tasks) :=
    (mem_tracked _ _).2 ⟨i, hi, rfl⟩
  rw [tracked_update_all] at hm
  have hm2 := List.mem_of_mem_take hm
  unfold first_seen at hm2
  rw [List.mem_reverse, List.mem_dedup, List.mem_reverse] at hm2
  unfold qualifying_ids at hm2
  have hm3 := (List.mem_filter.1 hm2).2
  simpa using hm3

/-- Witness for C12: a task of group -5 and the one-group table. -/
theorem C12_system_groups_ignored_witness :
    (single_threaded (-5) "swapper" 0).tgid < 1000 ∧
    update_process_buffer_cache 4096 16 one_group (single_threaded (-5) "swapper" 0)
      = one_group :=
  ⟨by decide,
   (C12_system_groups_ignored 4096 16 one_group (single_threaded (-5) "swapper" 0)
      (by decide)).1⟩

/-- Claim C13. A call never lowers `num_processes`, and every slot below the old
`num_processes` keeps its `tgid` and its `comm`; the same holds across any sequence of
calls. -/
theorem C13_ids_and_names_fixed (PAGE_SIZE TASK_COMM_LEN : Nat) (s : Table)
    (task : task_struct) (tasks : List task_struct) :
    (s.num_processes ≤
        (update_process_buffer_cache PAGE_SIZE TASK_COMM_LEN s task).num_processes ∧
      ∀ i, i < s.num_processes →
        ((update_process_buffer_cache PAGE_SIZE TASK_COMM_LEN s task).process_stats i).tgid
          = (s.process_stats i).tgid ∧
        ((update_process_buffer_cache PAGE_SIZE TASK_COMM_LEN s task).process_stats i).comm
          = (s.process_stats i).comm) ∧
    (s.num_processes ≤ (update_all PAGE_SIZE TASK_COMM_LEN s tasks).num_processes ∧
      ∀ i, i < s.num_processes →
        ((update_all PAGE_SIZE TASK_COMM_LEN s tasks).process_stats i).tgid
          = (s.process_stats i).tgid ∧
        ((update_all PAGE_SIZE TASK_COMM_LEN s tasks).process_stats i).comm
          = (s.process_stats i).comm) :=
  ⟨⟨update_num_le PAGE_SIZE TASK_COMM_LEN s task,
    fun i hi => update_keeps_id PAGE_SIZE TASK_COMM_LEN s task i hi⟩,
   update_all_frame PAGE_SIZE TASK_COMM_LEN tasks s⟩

/-! ## Aggregation, the stored usages, and groups that are no longer enumerated -/

theorem contribution_eq (P : Nat) (th : thread_struct) :
    get_task_buffer_cache_usage P th = spec_thread_contribution P th := by
  unfold get_task_buffer_cache_usage spec_thread_contribution
  cases th.mm with
  | none => rfl
  | some mm => simp

theorem foldl_usage (P : Nat) (threads : List thread_struct) :
    ∀ (acc : Nat), acc < ULONG_MOD →
      threads.foldl
        (fun a th => (a + get_task_buffer_cache_usage P th) % ULONG_MOD) acc =
      (acc + (threads.map (spec_thread_contribution P)).sum) % ULONG_MOD := by
  induction threads with
  | nil =>
    intro acc h
    simp [Nat.mod_eq_of_lt h]
  | cons th ths ih =>
    intro acc _
    have hpos : 0 < ULONG_MOD := by simp [ULONG_MOD]
    rw [List.foldl_cons, ih _ (Nat.mod_lt _ hpos), contribution_eq, List.map_cons,
      List.sum_cons, Nat.mod_add_mod, Nat.add_assoc]

theorem usage_eq (P : Nat) (task : task_struct) :
    thread_group_usage P task = spec_usage_bytes P task := by
  unfold thread_group_usage spec_usage_bytes
  rw [foldl_usage P task.threads 0 (by simp [ULONG_MOD]), Nat.zero_add]

theorem current_after_update (P L : Nat) (s : Table) (a : task_struct) (j : Nat)
    (hq : 1000 ≤ a.tgid)
    (hj : tracked_at (update_process_buffer_cache P L s a) a.tgid j) :
    ((update_process_buffer_cache P L s a).process_stats j).current_buffer_cache =
      thread_group_usage P a := by
  rcases update_cases P L s a with h | ⟨m, hm, h⟩ | ⟨hu, h⟩
  · have hp := prev_after_update P L s a j hq hj
    rw [h] at hj hp ⊢
    rcases tracked_or_untracked s a.tgid with ⟨m, hm⟩ | hu
    · have h2 := update_hit P L s a m hq hm
      rw [h] at h2
      have hjm : j = m := by
        rcases Nat.lt_trichotomy j m with h3 | h3 | h3
        · exact absurd hj.2.1 (hm.2.2 j h3)
        · exact h3
        · exact absurd hm.2.1 (hj.2.2 m h3)
      subst hjm
      have h4 := congrArg (fun t => (t.process_stats j).current_buffer_cache) h2
      simp only [Function.update_same, refresh] at h4
      exact h4
    · exact absurd hj.2.1 (hu j hj.1)
  · rw [h] at hj ⊢
    have hjm : j = m := by
      rcases Nat.lt_trichotomy j m with h3 | h3 | h3
      · exfalso
        have hne : j ≠ m := by omega
        have hj2 := hj.2.1
        simp only [Function.update_noteq hne] at hj2
        exact hm.2.2 j h3 hj2
      · exact h3
      · exfalso
        apply hj.2.2 m h3
        simp [refresh, hm.2.1]
    subst hjm
    simp [refresh]
  · rw [h] at hj ⊢
    have hjm : j = s.num_processes := by
      by_contra hne
      have hj1 := hj.1
      have hj2 := hj.2.1
      simp only [Function.update_noteq hne] at hj2
      simp only at hj1
      exact hu j (by omega) hj2
    subst hjm
    simp

/-- Claim C16. The usage computed by `update_process_buffer_cache` is the sum over
the threads of the group of the per-thread contribution, `total_vm * PAGE_SIZE` for a
thread with a memory descriptor and `0` for one without, sum and product taken modulo
`2 ^ 64`. That total is what the call stores in the group entry (as previous and as
current usage), and it is the only way the threads enter the call: two tasks with the
same id, name and total give the same table. Example: threads of `2 ^ 52`, none and 3
pages of 4096 bytes total `12288` bytes. -/
theorem C16_usage_is_thread_sum (PAGE_SIZE TASK_COMM_LEN : Nat) (s : Table)
    (task : task_struct) :
    (∀ (thread : thread_struct),
      get_task_buffer_cache_usage PAGE_SIZE thread =
        match thread.mm with
        | none => 0
        | some mm => (mm.total_vm * PAGE_SIZE) % 2 ^ 64) ∧
    thread_group_usage PAGE_SIZE task =
      ((task.threads.map (get_task_buffer_cache_usage PAGE_SIZE)).sum) % 2 ^ 64 ∧
    thread_group_usage PAGE_SIZE task = spec_usage_bytes PAGE_SIZE task ∧
    (∀ j, 1000 ≤ task.tgid →
      tracked_at (update_process_buffer_cache PAGE_SIZE TASK_COMM_LEN s task) task.tgid j →
      ((update_process_buffer_cache PAGE_SIZE TASK_COMM_LEN s task).process_stats
          j).current_buffer_cache = spec_usage_bytes PAGE_SIZE task ∧
      ((update_process_buffer_cache PAGE_SIZE TASK_COMM_LEN s task).process_stats
          j).prev_buffer_cache = spec_usage_bytes PAGE_SIZE task) ∧
    (∀ (t2 : task_struct), t2.tgid = task.tgid → t2.comm = task.comm →
      spec_usage_bytes PAGE_SIZE t2 = spec_usage_bytes PAGE_SIZE task →
      update_process_buffer_cache PAGE_SIZE TASK_COMM_LEN s t2 =
        update_process_buffer_cache PAGE_SIZE TASK_COMM_LEN s task) ∧
    thread_group_usage 4096 (three_threads 1500) = 12288 := by
  refine ⟨?_, ?_, usage_eq PAGE_SIZE task, ?_, ?_, by decide⟩
  · intro thread
    rw [contribution_eq]
    rfl
  · rw [usage_eq]
    unfold spec_usage_bytes
    have hf : get_task_buffer_cache_usage PAGE_SIZE = spec_thread_contribution PAGE_SIZE :=
      funext (contribution_eq PAGE_SIZE)
    rw [hf]
    rfl
  · intro j hq hj
    rw [← usage_eq]
    exact ⟨current_after_update PAGE_SIZE TASK_COMM_LEN s task j hq hj,
      prev_after_update PAGE_SIZE TASK_COMM_LEN s task j hq hj⟩
  · intro t2 h1 h2 h3
    rw [← usage_eq, ← usage_eq] at h3
    simp only [update_process_buffer_cache, h1, h2, h3]

/-- Claim C19. In every state reached from the empty table, every slot below
`num_processes` has `prev_buffer_cache = current_buffer_cache`; so the stored growth
need not be `max 0 (current - prev)` of the stored fields: after samples of 1000 and
then 1500 pages the entry has growth 2048000 while both stored usages are 6144000. -/
theorem C19_prev_equals_current (PAGE_SIZE TASK_COMM_LEN : Nat)
    (tasks : List task_struct) :
    (∀ i, i < (update_all PAGE_SIZE TASK_COMM_LEN Table.init tasks).num_processes →
      ((update_all PAGE_SIZE TASK_COMM_LEN Table.init tasks).process_stats
          i).prev_buffer_cache =
        ((update_all PAGE_SIZE TASK_COMM_LEN Table.init tasks).process_stats
          i).current_buffer_cache) ∧
    (grown_group = update_all 4096 16 Table.init
        [single_threaded 1234 "bash" 1000, single_threaded 1234 "bash" 1500] ∧
      grown_group.num_processes = 1 ∧
      grown_group.process_stats 0 = ⟨1234, "bash".toList, 6144000, 6144000, 2048000⟩ ∧
      ((grown_group.process_stats 0).growth : Int) ≠
        max 0 (((grown_group.process_stats 0).current_buffer_cache : Int) -
          (grown_group.process_stats 0).prev_buffer_cache)) := by
  refine ⟨?_, rfl, by decide, by decide, by decide⟩
  have key : ∀ (l : List task_struct) (s : Table),
      (∀ i, i < s.num_processes →
        (s.process_stats i).prev_buffer_cache = (s.process_stats i).current_buffer_cache) →
      ∀ i, i < (update_all PAGE_SIZE TASK_COMM_LEN s l).num_processes →
        ((update_all PAGE_SIZE TASK_COMM_LEN s l).process_stats i).prev_buffer_cache =
          ((update_all PAGE_SIZE TASK_COMM_LEN s l).process_stats i).current_buffer_cache := by
    intro l
    induction l with
    | nil => intro s h; exact h
    | cons t ts ih =>
      intro s h
      exact ih _ (update_prev_eq_current PAGE_SIZE TASK_COMM_LEN s t h)
  exact key tasks Table.init (fun i hi => absurd hi (Nat.not_lt_zero i))

theorem line_in_report (s : Table) (i : Nat) (hi : i < s.num_processes)
    (hg : 1 ≤ (s.process_stats i).growth) :
    stat_line (s.process_stats i) ∈ print_stats s := by
  unfold print_stats
  rw [print_loop_eq, ← List.range_eq_range']
  simp only [List.mem_append, List.mem_map, List.mem_filter, List.mem_range,
    decide_eq_true_eq, List.mem_singleton]
  exact Or.inl (Or.inr ⟨s.process_stats i, ⟨⟨i, hi, rfl⟩, hg⟩, rfl⟩)

theorem run_passes_other_slot (P L : Nat) (passes : List (List task_struct)) :
    ∀ (s : Table) (i : Nat), i < s.num_processes →
      (∀ q, q ∈ passes → ∀ t, t ∈ q → t.tgid ≠ (s.process_stats i).tgid) →
      i < (run_passes P L s passes).num_processes ∧
      (run_passes P L s passes).process_stats i = s.process_stats i := by
  induction passes with
  | nil => intro s i hi _; exact ⟨hi, rfl⟩
  | cons q qs ih =>
    intro s i hi h
    have h1 : (update_all P L s q).process_stats i = s.process_stats i :=
      update_all_other_slot P L q s i hi (h q (List.mem_cons_self q qs))
    have h2 : i < (update_all P L s q).num_processes :=
      lt_of_lt_of_le hi (update_all_frame P L q s).1
    have h3 := ih (update_all P L s q) i h2
      (by rw [h1]; exact fun r hr => h r (List.mem_cons_of_mem q hr))
    exact ⟨h3.1, h3.2.trans h1⟩

/-- Claim C20. A pass that enumerates no task of an already tracked group leaves the
entry of that group exactly as it was, growth included, and so does any sequence of
such passes; hence, when the entry has growth at least 1, the report of a further such
pass again holds the line of that group, with the same usage and the same growth. -/
theorem C20_unobserved_group_persists (PAGE_SIZE TASK_COMM_LEN : Nat) (s : Table)
    (i : Nat) (passes : List (List task_struct)) (p : List task_struct)
    (hi : i < s.num_processes)
    (hpasses : ∀ q, q ∈ passes → ∀ t, t ∈ q → t.tgid ≠ (s.process_stats i).tgid)
    (hp : ∀ t, t ∈ p → t.tgid ≠ (s.process_stats i).tgid) :
    (my_timer_callback PAGE_SIZE TASK_COMM_LEN s p).1.process_stats i = s.process_stats i ∧
    (run_passes PAGE_SIZE TASK_COMM_LEN s passes).process_stats i = s.process_stats i ∧
    (my_timer_callback PAGE_SIZE TASK_COMM_LEN
        (run_passes PAGE_SIZE TASK_COMM_LEN s passes) p).1.process_stats i
      = s.process_stats i ∧
    (1 ≤ (s.process_stats i).growth →
      stat_line (s.process_stats i) ∈
        (my_timer_callback PAGE_SIZE TASK_COMM_LEN
          (run_passes PAGE_SIZE TASK_COMM_LEN s passes) p).2) := by
  have h1 := update_all_other_slot PAGE_SIZE TASK_COMM_LEN p s i hi hp
  have h2 := run_passes_other_slot PAGE_SIZE TASK_COMM_LEN passes s i hi hpasses
  have h3 := update_all_other_slot PAGE_SIZE TASK_COMM_LEN p
    (run_passes PAGE_SIZE TASK_COMM_LEN s passes) i h2.1 (by rw [h2.2]; exact hp)
  have h4 : i < (update_all PAGE_SIZE TASK_COMM_LEN
      (run_passes PAGE_SIZE TASK_COMM_LEN s passes) p).num_processes :=
    lt_of_lt_of_le h2.1 (update_all_frame PAGE_SIZE TASK_COMM_LEN p _).1
  refine ⟨h1, h2.2, h3.trans h2.2, ?_⟩
  intro hg
  have h5 := line_in_report (update_all PAGE_SIZE TASK_COMM_LEN
    (run_passes PAGE_SIZE TASK_COMM_LEN s passes) p) i h4 (by rw [h3, h2.2]; exact hg)
  rw [h3, h2.2] at h5
  exact h5

/-- Witness for C20: group 1234 (growth 2048000 bytes) is absent from two passes and
from a third; the third report still holds its line. -/
theorem C20_unobserved_group_persists_witness :
    (0 < grown_group.num_processes ∧
      (∀ q, q ∈ [[single_threaded 2000 "vim" 10], []] → ∀ t, t ∈ q →
        t.tgid ≠ (grown_group.process_stats 0).tgid) ∧
      (∀ t, t ∈ [single_threaded 2000 "vim" 12] →
        t.tgid ≠ (grown_group.process_stats 0).tgid) ∧
      1 ≤ (grown_group.process_stats 0).growth) ∧
    "Process Group: bash (TGID: 1234) | Buffer Cache: 6144000 bytes | Growth: 2048000 bytes"
      ∈ (my_timer_callback 4096 16
          (run_passes 4096 16 grown_group [[single_threaded 2000 "vim" 10], []])
          [single_threaded 2000 "vim" 12]).2 :=
  ⟨⟨by decide, by decide, by decide, by decide⟩,
   (C20_unobserved_group_persists 4096 16 grown_group 0
      [[single_threaded 2000 "vim" 10], []] [single_threaded 2000 "vim" 12]
      (by decide) (by decide) (by decide)).2.2.2 (by decide)⟩

end page_buffer_cache
